import Mathlib

/-!
Verification of the structured-output pipeline of the weather agent
(`src/agents/weather_agent.py`).

The development shallowly embeds, in order:
* a JSON value type and a parser modelling the Python function `json.loads`
  (restricted to integer numerals: every number in the agent schema is an
  integer; floats, `NaN`/`Infinity` and lone-surrogate escapes are outside
  the model),
* Python string helpers used by the agent: `str.strip`, `str.split`,
  slicing `s[:n]`, and the substring test `in`,
* the markdown fence stripping of `WeatherAgent.stream` (lines 193-199),
* the pydantic-style validator for `DailyWeather` / `StructuredWeather`
  (declaration-order, fail-fast field checks; extra keys ignored, matching
  the pydantic v2 default of ignoring extra keys; the lax numeric-string coercions
  of the library are not modelled, fields must have the declared primitive
  kind as the design document states),
* `json.dumps` (compact and `indent=2` forms, `ensure_ascii` escaping),
* the final-event extraction (`processFinalText`, lines 193-227), the
  progress-event stream (`streamOutputs`, lines 174-233), the executor
  bridge (`executeEnqueued` / `consumedItems`, lines 270-295) and `cancel`
  (lines 297-301).
-/

/-- JSON values as produced by `json.loads`.  Objects keep the textual
member order (Python dicts preserve insertion order); numbers are
integers (see the module comment). -/
inductive Json where
  | null : Json
  | bool (b : Bool) : Json
  | num (n : Int) : Json
  | str (s : String) : Json
  | arr (xs : List Json) : Json
  | obj (kvs : List (String × Json)) : Json
deriving Repr

/-- The JSON whitespace characters skipped by `json.loads`. -/
def isJsonWs (c : Char) : Bool :=
  c = ' ' || c = '\t' || c = '\n' || c = '\r'

/-- Drop leading JSON whitespace. -/
def skipWs : List Char → List Char
  | [] => []
  | c :: cs => if isJsonWs c then skipWs cs else c :: cs

/-- Numeric value of a decimal digit character. -/
def digitVal : Char → Option Nat
  | c => if '0' ≤ c ∧ c ≤ '9' then some (c.toNat - 48) else none

/-- Numeric value of a hexadecimal digit character. -/
def hexVal : Char → Option Nat
  | c =>
    if '0' ≤ c ∧ c ≤ '9' then some (c.toNat - 48)
    else if 'a' ≤ c ∧ c ≤ 'f' then some (c.toNat - 87)
    else if 'A' ≤ c ∧ c ≤ 'F' then some (c.toNat - 55)
    else none

/-- Take a maximal run of decimal digits. -/
def takeDigits : List Char → List Nat × List Char
  | [] => ([], [])
  | c :: cs =>
    match digitVal c with
    | some d => let (ds, r) := takeDigits cs; (d :: ds, r)
    | none => ([], c :: cs)

/-- Decimal value of a digit run. -/
def digitsToNat (ds : List Nat) : Nat :=
  ds.foldl (fun a d => a * 10 + d) 0

/-- Body of a JSON string literal (the opening quote already consumed).
Returns the decoded characters and the input after the closing quote.
Mirrors the strict Python decoder: raw control characters are rejected,
the simple escapes and `\uXXXX` (with surrogate pairs) are decoded. -/
def parseStringBody : List Char → Option (List Char × List Char)
  | [] => none
  | c :: cs =>
    if c = '"' then some ([], cs)
    else if c.toNat < 32 then none
    else if c = '\\' then
      match cs with
      | [] => none
      | e :: cs2 =>
        if e = '"' then (parseStringBody cs2).map (fun p => ('"' :: p.1, p.2))
        else if e = '\\' then (parseStringBody cs2).map (fun p => ('\\' :: p.1, p.2))
        else if e = '/' then (parseStringBody cs2).map (fun p => ('/' :: p.1, p.2))
        else if e = 'b' then (parseStringBody cs2).map (fun p => ('\x08' :: p.1, p.2))
        else if e = 'f' then (parseStringBody cs2).map (fun p => ('\x0c' :: p.1, p.2))
        else if e = 'n' then (parseStringBody cs2).map (fun p => ('\n' :: p.1, p.2))
        else if e = 'r' then (parseStringBody cs2).map (fun p => ('\r' :: p.1, p.2))
        else if e = 't' then (parseStringBody cs2).map (fun p => ('\t' :: p.1, p.2))
        else if e = 'u' then
          match cs2 with
          | h1 :: h2 :: h3 :: h4 :: cs3 =>
            match hexVal h1, hexVal h2, hexVal h3, hexVal h4 with
            | some a, some b, some v3, some d =>
              let n := ((a * 16 + b) * 16 + v3) * 16 + d
              if n < 0xD800 ∨ 0xE000 ≤ n then
                (parseStringBody cs3).map (fun p => (Char.ofNat n :: p.1, p.2))
              else if n < 0xDC00 then
                match cs3 with
                | '\\' :: 'u' :: g1 :: g2 :: g3 :: g4 :: cs4 =>
                  match hexVal g1, hexVal g2, hexVal g3, hexVal g4 with
                  | some a2, some b2, some c2, some d2 =>
                    let m := ((a2 * 16 + b2) * 16 + c2) * 16 + d2
                    if 0xDC00 ≤ m ∧ m < 0xE000 then
                      (parseStringBody cs4).map
                        (fun p => (Char.ofNat (0x10000 + (n - 0xD800) * 0x400 + (m - 0xDC00)) :: p.1, p.2))
                    else none
                  | _, _, _, _ => none
                | _ => none
              else none
            | _, _, _, _ => none
          | _ => none
        else none
    else (parseStringBody cs).map (fun p => (c :: p.1, p.2))

/-- A JSON integer numeral: optional minus, no leading zeros; a following
`.`/`e`/`E` (a float literal) is outside the model and rejected. -/
def parseNumber (l : List Char) : Option (Json × List Char) :=
  let signed : Bool × List Char :=
    match l with
    | '-' :: rest => (true, rest)
    | _ => (false, l)
  match signed.2 with
  | [] => none
  | c :: cs =>
    if c = '0' then
      match cs with
      | '.' :: _ => none
      | 'e' :: _ => none
      | 'E' :: _ => none
      | _ => some (Json.num 0, cs)
    else
      match digitVal c with
      | none => none
      | some d =>
        let (ds, r) := takeDigits cs
        match r with
        | '.' :: _ => none
        | 'e' :: _ => none
        | 'E' :: _ => none
        | _ =>
          let v : Int := Int.ofNat (digitsToNat (d :: ds))
          some (Json.num (if signed.1 then -v else v), r)

mutual

/-- Parse one JSON value (fuel-indexed recursion; `loads` supplies ample
fuel, more than the nesting depth of any input). -/
def parseVal : Nat → List Char → Option (Json × List Char)
  | 0, _ => none
  | fuel + 1, l =>
    match l with
    | [] => none
    | c :: cs =>
      if c = '"' then
        (parseStringBody cs).map (fun p => (Json.str (String.mk p.1), p.2))
      else if c = '\x7b' then
        match skipWs cs with
        | '\x7d' :: r => some (Json.obj [], r)
        | cs1 => (parseMembers fuel cs1).map (fun p => (Json.obj p.1, p.2))
      else if c = '[' then
        match skipWs cs with
        | ']' :: r => some (Json.arr [], r)
        | cs1 => (parseItems fuel cs1).map (fun p => (Json.arr p.1, p.2))
      else if ['n', 'u', 'l', 'l'].isPrefixOf l then some (Json.null, l.drop 4)
      else if ['t', 'r', 'u', 'e'].isPrefixOf l then some (Json.bool true, l.drop 4)
      else if ['f', 'a', 'l', 's', 'e'].isPrefixOf l then some (Json.bool false, l.drop 5)
      else parseNumber l

/-- Parse the members of a JSON object after `{` (input already known to
be non-empty of a closing brace). -/
def parseMembers : Nat → List Char → Option (List (String × Json) × List Char)
  | 0, _ => none
  | fuel + 1, l =>
    match l with
    | '"' :: cs =>
      match parseStringBody cs with
      | none => none
      | some (key, r1) =>
        match skipWs r1 with
        | ':' :: r2 =>
          match parseVal fuel (skipWs r2) with
          | none => none
          | some (v, r3) =>
            match skipWs r3 with
            | ',' :: r4 =>
              (parseMembers fuel (skipWs r4)).map
                (fun p => ((String.mk key, v) :: p.1, p.2))
            | '\x7d' :: r4 => some ([(String.mk key, v)], r4)
            | _ => none
        | _ => none
    | _ => none

/-- Parse the items of a JSON array after `[` (input already known not to
start with `]`). -/
def parseItems : Nat → List Char → Option (List Json × List Char)
  | 0, _ => none
  | fuel + 1, l =>
    match parseVal fuel l with
    | none => none
    | some (v, r1) =>
      match skipWs r1 with
      | ',' :: r2 => (parseItems fuel (skipWs r2)).map (fun p => (v :: p.1, p.2))
      | ']' :: r2 => some ([v], r2)
      | _ => none

end

/-- Model of the Python call `json.loads`: parse a single value surrounded by
optional whitespace; any trailing data is an error (`None` here). -/
def loads (s : String) : Option Json :=
  match parseVal (s.length * 2 + 4) (skipWs s.toList) with
  | some (j, rest) => if skipWs rest = [] then some j else none
  | none => none

/-- The characters removed by the Python method `str.strip()` (ASCII whitespace;
the rarely relevant non-ASCII whitespace of Python is outside the model). -/
def isPyWs (c : Char) : Bool :=
  c = ' ' || c = '\t' || c = '\n' || c = '\r' || c = '\x0b' || c = '\x0c'

/-- Model of the Python method `str.strip()`. -/
def pyStrip (s : String) : String :=
  String.mk (((s.toList.dropWhile isPyWs).reverse.dropWhile isPyWs).reverse)

/-- Model of the Python slice `s[:n]`: the first `n` characters, the whole
string when it is shorter (never an error). -/
def pySlice (s : String) (n : Nat) : String :=
  String.mk (s.toList.take n)

/-- Find the first occurrence of `sep` (non-empty) in `l`: returns the
part before it and the part after it. -/
def splitOnceAfter (sep : List Char) : List Char → Option (List Char × List Char)
  | [] => none
  | c :: cs =>
    if sep.isPrefixOf (c :: cs) then some ([], (c :: cs).drop sep.length)
    else
      match splitOnceAfter sep cs with
      | some p => some (c :: p.1, p.2)
      | none => none

/-- Model of the Python substring test `sub in s` (for non-empty `sub`). -/
def hasSub (s sub : String) : Bool :=
  (splitOnceAfter sub.toList s.toList).isSome

/-- Model of the Python method `s.split(sep)` on character lists, fuel-indexed
(`pySplit` supplies ample fuel: a split step always consumes input). -/
def pySplitF (sep : List Char) : Nat → List Char → List (List Char)
  | 0, l => [l]
  | fuel + 1, l =>
    match splitOnceAfter sep l with
    | none => [l]
    | some (b, r) => b :: pySplitF sep fuel r

/-- Model of the Python method `s.split(sep)` for a non-empty separator. -/
def pySplit (s sep : String) : List String :=
  (pySplitF sep.toList (s.toList.length + 1) s.toList).map String.mk

/-- The JSON-tagged markdown fence marker. -/
def fenceJson : String := "```json"

/-- The generic markdown fence marker. -/
def fenceGeneric : String := "```"

/-- The markdown fence stripping of `WeatherAgent.stream` (lines 196-199):
`content_str.split("```json")[1].split("```")[0].strip()` when the
JSON-tagged marker occurs, else the same with the generic marker, else the
(already stripped) text unchanged.  The indexing `[1]` is guarded by the
`in` checks, so the list defaults below are never used. -/
def stripFences (content_str : String) : String :=
  if hasSub content_str fenceJson then
    pyStrip ((pySplit ((pySplit content_str fenceJson).getD 1 "") fenceGeneric).getD 0 "")
  else if hasSub content_str fenceGeneric then
    pyStrip ((pySplit ((pySplit content_str fenceGeneric).getD 1 "") fenceGeneric).getD 0 "")
  else content_str

/-- Structured data for the forecast of one day (`DailyWeather`, lines 45-55). -/
structure DailyWeather where
  day : Int
  date : String
  condition : String
  highTemp : Int
  lowTemp : Int
  precipitation : Int
  humidity : Int
  windSpeed : Int
  description : String
deriving Repr, DecidableEq

/-- Complete structured weather forecast output (`StructuredWeather`,
lines 58-63). -/
structure StructuredWeather where
  destination : String
  forecast : List DailyWeather
  travelAdvice : String
  bestDays : List Int
deriving Repr, DecidableEq

/-- Look a key up in the member list of a JSON object.  Later members win, as
in the Python dict built by `json.loads` from duplicate keys. -/
def getKey : List (String × Json) → String → Option Json
  | [], _ => none
  | (k, v) :: rest, key =>
    match getKey rest key with
    | some r => some r
    | none => if k = key then some v else none

/-- Validate a required integer field of a JSON object (pydantic: missing
key or a non-integer value is a validation error). -/
def intField (kvs : List (String × Json)) (k : String) : Except String Int :=
  match getKey kvs k with
  | some (Json.num n) => Except.ok n
  | some _ => Except.error (k ++ ": Input should be a valid integer")
  | none => Except.error (k ++ ": Field required")

/-- Validate a required string field of a JSON object. -/
def strField (kvs : List (String × Json)) (k : String) : Except String String :=
  match getKey kvs k with
  | some (Json.str s) => Except.ok s
  | some _ => Except.error (k ++ ": Input should be a valid string")
  | none => Except.error (k ++ ": Field required")

/-- Validate a required list field of a JSON object. -/
def arrField (kvs : List (String × Json)) (k : String) : Except String (List Json) :=
  match getKey kvs k with
  | some (Json.arr xs) => Except.ok xs
  | some _ => Except.error (k ++ ": Input should be a valid list")
  | none => Except.error (k ++ ": Field required")

/-- Pydantic-style validation of one `DailyWeather` element: every field
required, of the declared primitive kind, checked in declaration order,
extra keys ignored; the first violation is reported. -/
def validateDaily : Json → Except String DailyWeather
  | Json.obj kvs =>
    match intField kvs "day" with
    | Except.error e => Except.error e
    | Except.ok day =>
    match strField kvs "date" with
    | Except.error e => Except.error e
    | Except.ok date =>
    match strField kvs "condition" with
    | Except.error e => Except.error e
    | Except.ok condition =>
    match intField kvs "highTemp" with
    | Except.error e => Except.error e
    | Except.ok highTemp =>
    match intField kvs "lowTemp" with
    | Except.error e => Except.error e
    | Except.ok lowTemp =>
    match intField kvs "precipitation" with
    | Except.error e => Except.error e
    | Except.ok precipitation =>
    match intField kvs "humidity" with
    | Except.error e => Except.error e
    | Except.ok humidity =>
    match intField kvs "windSpeed" with
    | Except.error e => Except.error e
    | Except.ok windSpeed =>
    match strField kvs "description" with
    | Except.error e => Except.error e
    | Except.ok description =>
      Except.ok
        { day, date, condition, highTemp, lowTemp,
          precipitation, humidity, windSpeed, description }
  | _ => Except.error "Input should be a valid dictionary"

/-- Validate every element of the `forecast` array as `DailyWeather`,
failing on the first bad element. -/
def validateDailyList : List Json → Except String (List DailyWeather)
  | [] => Except.ok []
  | j :: rest =>
    match validateDaily j with
    | Except.error e => Except.error e
    | Except.ok d =>
      match validateDailyList rest with
      | Except.error e => Except.error e
      | Except.ok ds => Except.ok (d :: ds)

/-- Validate every element of the `bestDays` array as an integer. -/
def validateIntList : List Json → Except String (List Int)
  | [] => Except.ok []
  | j :: rest =>
    match j with
    | Json.num n =>
      match validateIntList rest with
      | Except.error e => Except.error e
      | Except.ok ns => Except.ok (n :: ns)
    | _ => Except.error "bestDays: Input should be a valid integer"

/-- Pydantic-style validation `StructuredWeather(**structured_data)`
(line 204): the input must be a JSON object; the four declared fields are
required and checked in declaration order; unknown keys are ignored
(the pydantic v2 default of ignoring extra keys).  A non-object input corresponds
to the `TypeError` of `**` on a non-mapping, caught by the same handler. -/
def validateStructured : Json → Except String StructuredWeather
  | Json.obj kvs =>
    match strField kvs "destination" with
    | Except.error e => Except.error e
    | Except.ok destination =>
    match arrField kvs "forecast" with
    | Except.error e => Except.error e
    | Except.ok fitems =>
    match validateDailyList fitems with
    | Except.error e => Except.error e
    | Except.ok forecast =>
    match strField kvs "travelAdvice" with
    | Except.error e => Except.error e
    | Except.ok travelAdvice =>
    match arrField kvs "bestDays" with
    | Except.error e => Except.error e
    | Except.ok bitems =>
    match validateIntList bitems with
    | Except.error e => Except.error e
    | Except.ok bestDays =>
      Except.ok { destination, forecast, travelAdvice, bestDays }
  | _ => Except.error "argument after ** must be a mapping"

/-- Lowercase hexadecimal digit. -/
def hexDigitChar (n : Nat) : Char :=
  if n < 10 then Char.ofNat (48 + n) else Char.ofNat (87 + n)

/-- Four lowercase hex digits, as in the Python `\uXXXX` escapes. -/
def hex4 (n : Nat) : String :=
  String.mk [hexDigitChar (n / 4096 % 16), hexDigitChar (n / 256 % 16),
    hexDigitChar (n / 16 % 16), hexDigitChar (n % 16)]

/-- One character of a JSON string as written by `json.dumps` with its
default `ensure_ascii=True`. -/
def escapeChar (c : Char) : String :=
  if c = '"' then "\\\""
  else if c = '\\' then "\\\\"
  else if c = '\n' then "\\n"
  else if c = '\r' then "\\r"
  else if c = '\t' then "\\t"
  else if c = '\x08' then "\\b"
  else if c = '\x0c' then "\\f"
  else if c.toNat < 32 then "\\u" ++ hex4 c.toNat
  else if c.toNat < 127 then String.mk [c]
  else if c.toNat < 0x10000 then "\\u" ++ hex4 c.toNat
  else
    "\\u" ++ hex4 (0xD800 + (c.toNat - 0x10000) / 0x400) ++
      "\\u" ++ hex4 (0xDC00 + (c.toNat - 0x10000) % 0x400)

/-- A quoted JSON string literal as written by `json.dumps`. -/
def quoteJsonString (s : String) : String :=
  "\"" ++ String.join (s.toList.map escapeChar) ++ "\""

/-- Atoms shared by both `json.dumps` forms. -/
def dumpsAtom : Json → String
  | Json.null => "null"
  | Json.bool true => "true"
  | Json.bool false => "false"
  | Json.num n => toString n
  | Json.str s => quoteJsonString s
  | Json.arr _ => ""
  | Json.obj _ => ""

mutual

/-- Model of the Python call `json.dumps(x)` with default separators
`", "` and `": "`. -/
def dumps : Json → String
  | Json.arr xs => "[" ++ dumpsItems xs ++ "]"
  | Json.obj kvs => "\x7b" ++ dumpsMembers kvs ++ "\x7d"
  | j => dumpsAtom j

/-- Comma-separated array items of compact `json.dumps`. -/
def dumpsItems : List Json → String
  | [] => ""
  | [x] => dumps x
  | x :: y :: xs => dumps x ++ ", " ++ dumpsItems (y :: xs)

/-- Comma-separated object members of compact `json.dumps`. -/
def dumpsMembers : List (String × Json) → String
  | [] => ""
  | [(k, v)] => quoteJsonString k ++ ": " ++ dumps v
  | (k, v) :: m :: kvs => quoteJsonString k ++ ": " ++ dumps v ++ ", " ++ dumpsMembers (m :: kvs)

end

/-- A run of spaces. -/
def nspaces (n : Nat) : String :=
  String.mk (List.replicate n ' ')

mutual

/-- Model of the Python call `json.dumps(x, indent=2)` at indentation `lvl`
(top-level calls use `lvl = 0`; the item separator becomes `","` and
members sit on their own indented lines). -/
def dumpsInd (lvl : Nat) : Json → String
  | Json.arr [] => "[]"
  | Json.arr (x :: xs) =>
    "[\n" ++ dumpsIndItems (lvl + 2) (x :: xs) ++ "\n" ++ nspaces lvl ++ "]"
  | Json.obj [] => "\x7b\x7d"
  | Json.obj (p :: kvs) =>
    "\x7b\n" ++ dumpsIndMembers (lvl + 2) (p :: kvs) ++ "\n" ++ nspaces lvl ++ "\x7d"
  | j => dumpsAtom j

/-- Indented array items of `json.dumps(x, indent=2)`. -/
def dumpsIndItems (lvl : Nat) : List Json → String
  | [] => ""
  | [x] => nspaces lvl ++ dumpsInd lvl x
  | x :: y :: ys => nspaces lvl ++ dumpsInd lvl x ++ ",\n" ++ dumpsIndItems lvl (y :: ys)

/-- Indented object members of `json.dumps(x, indent=2)`. -/
def dumpsIndMembers (lvl : Nat) : List (String × Json) → String
  | [] => ""
  | [(k, v)] => nspaces lvl ++ quoteJsonString k ++ ": " ++ dumpsInd lvl v
  | (k, v) :: q :: qs =>
    nspaces lvl ++ quoteJsonString k ++ ": " ++ dumpsInd lvl v ++ ",\n" ++
      dumpsIndMembers lvl (q :: qs)

end

/-- The `model_dump()` of a validated `DailyWeather`: its fields in
declaration order. -/
def dumpDaily (d : DailyWeather) : Json :=
  Json.obj [("day", Json.num d.day), ("date", Json.str d.date),
    ("condition", Json.str d.condition), ("highTemp", Json.num d.highTemp),
    ("lowTemp", Json.num d.lowTemp), ("precipitation", Json.num d.precipitation),
    ("humidity", Json.num d.humidity), ("windSpeed", Json.num d.windSpeed),
    ("description", Json.str d.description)]

/-- The `model_dump()` of a validated `StructuredWeather`: its fields in
declaration order (the stable field order of the re-serialization). -/
def modelDump (w : StructuredWeather) : Json :=
  Json.obj [("destination", Json.str w.destination),
    ("forecast", Json.arr (w.forecast.map dumpDaily)),
    ("travelAdvice", Json.str w.travelAdvice),
    ("bestDays", Json.arr (w.bestDays.map Json.num))]

/-- The fixed text of the malformed-JSON error envelope. -/
def malformedErrorText : String := "Failed to generate structured weather forecast"

/-- Extraction and validation of the final event text (lines 193-227 of
`WeatherAgent.stream`): strip, strip fences, `json.loads`, pydantic
validation, and serialize either the validated value (`indent=2`) or the
matching error envelope. -/
def processFinalText (response_text : String) : String :=
  let content_str := stripFences (pyStrip response_text)
  match loads content_str with
  | none =>
    dumps (Json.obj [("error", Json.str malformedErrorText),
      ("raw_content", Json.str (pySlice content_str 200))])
  | some structured_data =>
    match validateStructured structured_data with
    | Except.ok validated_weather => dumpsInd 0 (modelDump validated_weather)
    | Except.error e =>
      dumps (Json.obj [("error", Json.str ("Validation failed: " ++ e))])

/-- The prefix of `l` before the first occurrence of `sep`, or all of `l`
when `sep` does not occur. -/
def takeUntil (sep : List Char) : List Char → List Char
  | [] => []
  | c :: cs => if sep.isPrefixOf (c :: cs) then [] else c :: takeUntil sep cs

/-- The suffix of `l` after the first occurrence of `sep` (empty when
`sep` does not occur; only used under an occurrence test). -/
def dropAfterFirst (sep : List Char) (l : List Char) : List Char :=
  match splitOnceAfter sep l with
  | some p => p.2
  | none => []

/-- The fence stripping as the design document words it: the candidate is
the substring between the end of the first `` ```json `` marker and the
next `` ``` `` marker (or between the first and second generic markers),
then trimmed; written from the specification for comparison with
`stripFences`. -/
def specStripFences (s : String) : String :=
  if hasSub s fenceJson then
    pyStrip (String.mk (takeUntil fenceGeneric.toList
      (dropAfterFirst fenceJson.toList s.toList)))
  else if hasSub s fenceGeneric then
    pyStrip (String.mk (takeUntil fenceGeneric.toList
      (dropAfterFirst fenceGeneric.toList s.toList)))
  else s

/-- One content part of an inference event; `text` is `None` or a string
in the source, a string that may be empty. -/
structure ContentPart where
  text : Option String
deriving Repr, DecidableEq

/-- The content of an inference event: its ordered parts. -/
structure Content where
  parts : List ContentPart
deriving Repr, DecidableEq

/-- One event of the inference engine stream, as `WeatherAgent.stream`
reads it: its finality flag and its optional content. -/
structure InferenceEvent where
  is_final_response : Bool
  content : Option Content
deriving Repr, DecidableEq

/-- Python truthiness of an optional string (`None` and `""` are falsy). -/
def textTruthy : Option String → Bool
  | some s => !(s == "")
  | none => false

/-- The texts of the parts with truthy text, in order
(`[p.text for p in event.content.parts if p.text]`). -/
def textsOf (parts : List ContentPart) : List String :=
  parts.filterMap fun p =>
    match p.text with
    | some s => if s = "" then none else some s
    | none => none

/-- The raw response text of a final event (lines 181-190): the newline
join of the truthy part texts, but only when the event has content with a
first part whose text is truthy; otherwise the empty string. -/
def responseText (event : InferenceEvent) : String :=
  match event.content with
  | none => ""
  | some content =>
    match content.parts with
    | [] => ""
    | p :: _ =>
      if textTruthy p.text then String.intercalate "\n" (textsOf content.parts)
      else ""

/-- The guard of lines 182-186:
`event.content and event.content.parts and event.content.parts[0].text`. -/
def firstPartTextTruthy (event : InferenceEvent) : Bool :=
  match event.content with
  | none => false
  | some content =>
    match content.parts with
    | [] => false
    | p :: _ => textTruthy p.text

/-- The raw response text as the design document words it: the newline
join of the texts of the textual content parts, empty for an event with
no textual parts; written from the specification for comparison with
`responseText`. -/
def specResponseText (event : InferenceEvent) : String :=
  match event.content with
  | none => ""
  | some content => String.intercalate "\n" (textsOf content.parts)

/-- One item the response bridge yields: either an interim update or the
final payload (`dict` with `is_task_complete` and `updates`/`content`). -/
inductive ProgressEvent where
  | incomplete (updates : String) : ProgressEvent
  | complete (content : String) : ProgressEvent
deriving Repr, DecidableEq

/-- The `is_task_complete` flag of a yielded item. -/
def ProgressEvent.is_task_complete : ProgressEvent → Bool
  | ProgressEvent.complete _ => true
  | ProgressEvent.incomplete _ => false

/-- The fixed status message (`get_processing_message`, lines 85-87). -/
def get_processing_message : String :=
  "Checking weather forecasts and travel conditions..."

/-- What `WeatherAgent.stream` yields for one inference event (the body
of the `async for` loop, lines 179-233). -/
def processEvent (event : InferenceEvent) : ProgressEvent :=
  if event.is_final_response then
    ProgressEvent.complete (processFinalText (responseText event))
  else
    ProgressEvent.incomplete get_processing_message

/-- The full output sequence of `WeatherAgent.stream` on an inference
event sequence: one progress event per inference event, in order. -/
def streamOutputs (events : List InferenceEvent) : List ProgressEvent :=
  events.map processEvent

/-- The `final_content` computed by `WeatherAgentExecutor.execute`
(lines 288-292): `""` initially, replaced by the content of the first
complete item, at which point the loop breaks. -/
def firstCompleteContent : List ProgressEvent → String
  | [] => ""
  | ProgressEvent.complete c :: _ => c
  | ProgressEvent.incomplete _ :: rest => firstCompleteContent rest

/-- The items `WeatherAgentExecutor.execute` actually reads from the
sequence before its `break`. -/
def consumedItems : List ProgressEvent → List ProgressEvent
  | [] => []
  | ProgressEvent.complete c :: _ => [ProgressEvent.complete c]
  | ProgressEvent.incomplete m :: rest => ProgressEvent.incomplete m :: consumedItems rest

/-- The bodies of the outbound text messages `execute` enqueues: exactly
one, carrying `final_content` (line 295). -/
def executeEnqueued (items : List ProgressEvent) : List String :=
  [firstCompleteContent items]

/-- The request context as far as the executor touches it. -/
structure RequestContext where
  user_input : String
  context_id : String
deriving Repr, DecidableEq

/-- The outbound event queue as far as the executor touches it. -/
structure EventQueueState where
  enqueued : List String
deriving Repr, DecidableEq

/-- `WeatherAgentExecutor.cancel` (lines 297-301): unconditionally raises
`Exception('cancel not supported')`, modelled as an `Except.error`. -/
def cancel (_context : RequestContext) (_event_queue : EventQueueState) :
    Except String Unit :=
  Except.error "cancel not supported"

/-- Field-level agreement of one input JSON value with a validated
`DailyWeather`: the input is an object whose nine schema fields hold
exactly the validated values. -/
def dailyMatches (j : Json) (d : DailyWeather) : Prop :=
  match j with
  | Json.obj kvs =>
    getKey kvs "day" = some (Json.num d.day) ∧
    getKey kvs "date" = some (Json.str d.date) ∧
    getKey kvs "condition" = some (Json.str d.condition) ∧
    getKey kvs "highTemp" = some (Json.num d.highTemp) ∧
    getKey kvs "lowTemp" = some (Json.num d.lowTemp) ∧
    getKey kvs "precipitation" = some (Json.num d.precipitation) ∧
    getKey kvs "humidity" = some (Json.num d.humidity) ∧
    getKey kvs "windSpeed" = some (Json.num d.windSpeed) ∧
    getKey kvs "description" = some (Json.str d.description)
  | _ => False

/-- Field-level agreement of the input JSON with a validated
`StructuredWeather`: destination, travel advice and best days are exactly
the input values, and the forecast array matches element by element. -/
def weatherMatches (j : Json) (w : StructuredWeather) : Prop :=
  match j with
  | Json.obj kvs =>
    getKey kvs "destination" = some (Json.str w.destination) ∧
    (match getKey kvs "forecast" with
     | some (Json.arr items) => List.Forall₂ dailyMatches items w.forecast
     | _ => False) ∧
    getKey kvs "travelAdvice" = some (Json.str w.travelAdvice) ∧
    getKey kvs "bestDays" = some (Json.arr (w.bestDays.map Json.num))
  | _ => False

/-- The four field names of the `StructuredWeather` schema. -/
def structuredWeatherKeys : List String :=
  ["destination", "forecast", "travelAdvice", "bestDays"]

/-- The member keys of a JSON object. -/
def objKeys : Json → List String
  | Json.obj kvs => kvs.map Prod.fst
  | _ => []

/-- A well-formed input whose `bestDays` entries reference no `day` present
in `forecast` (the duplicated index 7) and whose percentage fields lie
outside 0-100 (precipitation 150, humidity -5). -/
def badRangeJson : Json :=
  Json.obj [("destination", Json.str "Nowhere"),
    ("forecast", Json.arr [Json.obj [("day", Json.num 1),
      ("date", Json.str "Dec 15"), ("condition", Json.str "Sunny"),
      ("highTemp", Json.num 70), ("lowTemp", Json.num 50),
      ("precipitation", Json.num 150), ("humidity", Json.num (-5)),
      ("windSpeed", Json.num 5), ("description", Json.str "odd")]]),
    ("travelAdvice", Json.str "go"),
    ("bestDays", Json.arr [Json.num 7, Json.num 7])]

/-- The value the schema accepts for `badRangeJson`. -/
def badRangeWeather : StructuredWeather :=
  StructuredWeather.mk "Nowhere"
    [DailyWeather.mk 1 "Dec 15" "Sunny" 70 50 150 (-5) 5 "odd"]
    "go" [7, 7]

/-- The event text of the round-trip witness: a fenced JSON forecast with
one daily element, surrounded by extraneous prose. -/
def sampleEventText : String :=
  "Here you go:\n```json\n\x7b\"destination\": \"Kyoto\", \"forecast\": " ++
    "[\x7b\"day\": 1, \"date\": \"Dec 15\", \"condition\": \"Sunny\", " ++
    "\"highTemp\": 55, \"lowTemp\": 40, \"precipitation\": 10, " ++
    "\"humidity\": 45, \"windSpeed\": 8, \"description\": \"Clear\"\x7d], " ++
    "\"travelAdvice\": \"Pack light\", \"bestDays\": [1]\x7d\n```"

/-- The JSON value `sampleEventText` parses to. -/
def sampleJson : Json :=
  Json.obj [("destination", Json.str "Kyoto"),
    ("forecast", Json.arr [Json.obj [("day", Json.num 1),
      ("date", Json.str "Dec 15"), ("condition", Json.str "Sunny"),
      ("highTemp", Json.num 55), ("lowTemp", Json.num 40),
      ("precipitation", Json.num 10), ("humidity", Json.num 45),
      ("windSpeed", Json.num 8), ("description", Json.str "Clear")]]),
    ("travelAdvice", Json.str "Pack light"),
    ("bestDays", Json.arr [Json.num 1])]

/-- The validated value of `sampleJson`. -/
def sampleWeather : StructuredWeather :=
  StructuredWeather.mk "Kyoto"
    [DailyWeather.mk 1 "Dec 15" "Sunny" 55 40 10 45 8 "Clear"]
    "Pack light" [1]

theorem takeUntil_prefix_self (sep : List Char) (l : List Char) : takeUntil sep l <+: l := by
  induction l with
  | nil => exact List.prefix_refl []
  | cons c cs ih =>
    unfold takeUntil
    by_cases hp : sep.isPrefixOf (c :: cs) = true
    · rw [if_pos hp]; exact List.nil_prefix
    · rw [if_neg hp]
      exact List.cons_prefix_cons.mpr ⟨rfl, ih⟩

theorem takeUntil_idem (sep : List Char) (l : List Char) :
    takeUntil sep (takeUntil sep l) = takeUntil sep l := by
  induction l with
  | nil => rfl
  | cons c cs ih =>
    by_cases hp : sep.isPrefixOf (c :: cs) = true
    · show takeUntil sep (if sep.isPrefixOf (c :: cs) then [] else c :: takeUntil sep cs) =
        if sep.isPrefixOf (c :: cs) then [] else c :: takeUntil sep cs
      rw [if_pos hp]
      rfl
    · show takeUntil sep (if sep.isPrefixOf (c :: cs) then [] else c :: takeUntil sep cs) =
        if sep.isPrefixOf (c :: cs) then [] else c :: takeUntil sep cs
      rw [if_neg hp]
      have hp2 : ¬ sep.isPrefixOf (c :: takeUntil sep cs) = true := by
        intro hx
        apply hp
        rw [List.isPrefixOf_iff_prefix] at hx ⊢
        exact hx.trans (List.cons_prefix_cons.mpr ⟨rfl, takeUntil_prefix_self sep cs⟩)
      show (if sep.isPrefixOf (c :: takeUntil sep cs) then [] else
        c :: takeUntil sep (takeUntil sep cs)) = c :: takeUntil sep cs
      rw [if_neg hp2, ih]

theorem splitOnceAfter_fst (sep : List Char) (l b r : List Char)
    (h : splitOnceAfter sep l = some (b, r)) : b = takeUntil sep l := by
  induction l generalizing b r with
  | nil => simp [splitOnceAfter] at h
  | cons c cs ih =>
    unfold splitOnceAfter at h
    unfold takeUntil
    by_cases hp : sep.isPrefixOf (c :: cs) = true
    · rw [if_pos hp] at h
      rw [if_pos hp]
      injection h with h1
      injection h1 with hb hr
      exact hb.symm
    · rw [if_neg hp] at h
      rw [if_neg hp]
      cases hs : splitOnceAfter sep cs with
      | none => rw [hs] at h; cases h
      | some p =>
        rw [hs] at h
        injection h with h1
        injection h1 with hb hr
        rw [← hb, ih p.1 p.2 (by rw [hs])]

theorem splitOnceAfter_none (sep : List Char) (l : List Char)
    (h : splitOnceAfter sep l = none) : takeUntil sep l = l := by
  induction l with
  | nil => rfl
  | cons c cs ih =>
    unfold splitOnceAfter at h
    unfold takeUntil
    by_cases hp : sep.isPrefixOf (c :: cs) = true
    · rw [if_pos hp] at h; cases h
    · rw [if_neg hp] at h
      rw [if_neg hp]
      cases hs : splitOnceAfter sep cs with
      | none => rw [ih hs]
      | some p => rw [hs] at h; cases h

theorem pySplitF_map_getD_zero (sep : List Char) (n : Nat) (l : List Char) :
    ((pySplitF sep (n + 1) l).map String.mk).getD 0 "" = String.mk (takeUntil sep l) := by
  unfold pySplitF
  cases hs : splitOnceAfter sep l with
  | none => simp [splitOnceAfter_none sep l hs]
  | some p => simp [splitOnceAfter_fst sep l p.1 p.2 (by rw [hs])]

theorem pySplit_getD_zero (x sub : String) :
    (pySplit x sub).getD 0 "" = String.mk (takeUntil sub.toList x.toList) := by
  unfold pySplit
  exact pySplitF_map_getD_zero sub.toList x.toList.length x.toList

theorem pySplit_getD_one (s sub : String) (b r : List Char)
    (hs : splitOnceAfter sub.toList s.toList = some (b, r)) :
    (pySplit s sub).getD 1 "" = String.mk (takeUntil sub.toList r) := by
  unfold pySplit
  cases hl : s.toList with
  | nil => rw [hl] at hs; simp [splitOnceAfter] at hs
  | cons c cs =>
    rw [hl] at hs
    show ((pySplitF sub.toList (cs.length + 1 + 1) (c :: cs)).map String.mk).getD 1 "" = _
    unfold pySplitF
    rw [hs]
    simp only [List.map_cons, List.getD_cons_succ]
    exact pySplitF_map_getD_zero sub.toList cs.length r

/-- C2: the claimed fence-stripping description fails on the code: on
`"```json````json"` the code yields a single backtick while the claimed
rule (substring between the end of the first JSON-tagged marker and the
next generic marker) yields the empty string, because the next generic
marker overlaps the following JSON-tagged marker that the Python `split`
cuts at first. -/
theorem fence_stripping_counterexample :
    stripFences "```json````json" = "`" ∧
    specStripFences "```json````json" = "" ∧
    stripFences "```json````json" ≠ specStripFences "```json````json" :=
  ⟨rfl, rfl, by decide⟩

/-- C2 (amended): fence stripping in priority order, with the closing
search confined to the segment the Python split produces: if the text
contains `` ```json ``, the candidate is the trimmed prefix, up to its
first `` ``` `` marker, of the text between the first and second
`` ```json `` markers; else if the text contains `` ``` ``, the candidate
is the trimmed substring between the first and second `` ``` `` markers;
else the candidate is the trimmed text unchanged. -/
theorem fence_stripping_amended (s : String) :
    stripFences s =
      if hasSub s fenceJson then
        pyStrip (String.mk (takeUntil fenceGeneric.toList
          (takeUntil fenceJson.toList (dropAfterFirst fenceJson.toList s.toList))))
      else if hasSub s fenceGeneric then
        pyStrip (String.mk (takeUntil fenceGeneric.toList
          (dropAfterFirst fenceGeneric.toList s.toList)))
      else s := by
  unfold stripFences
  by_cases hj : hasSub s fenceJson = true
  · rw [if_pos hj, if_pos hj]
    have hj2 := hj
    unfold hasSub at hj2
    obtain ⟨⟨b, r⟩, hs⟩ := Option.isSome_iff_exists.mp hj2
    rw [pySplit_getD_one s fenceJson b r hs]
    rw [pySplit_getD_zero (String.mk (takeUntil fenceJson.toList r)) fenceGeneric]
    unfold dropAfterFirst
    rw [hs]
    rfl
  · rw [if_neg hj, if_neg hj]
    by_cases hg : hasSub s fenceGeneric = true
    · rw [if_pos hg, if_pos hg]
      have hg2 := hg
      unfold hasSub at hg2
      obtain ⟨⟨b, r⟩, hs⟩ := Option.isSome_iff_exists.mp hg2
      rw [pySplit_getD_one s fenceGeneric b r hs]
      rw [pySplit_getD_zero (String.mk (takeUntil fenceGeneric.toList r)) fenceGeneric]
      unfold dropAfterFirst
      rw [hs]
      show pyStrip (String.mk (takeUntil fenceGeneric.toList
        (takeUntil fenceGeneric.toList r))) = _
      rw [takeUntil_idem]
    · rw [if_neg hg, if_neg hg]

/-- C5: the claimed description of the raw response text fails on the
code: a final event whose first content part has no text yields the empty
string even when a later part carries text, because the guard of
lines 182-186 checks only `parts[0].text`. -/
theorem response_text_counterexample :
    responseText
        ⟨true, some ⟨[⟨none⟩, ⟨some "hello"⟩]⟩⟩ = "" ∧
    specResponseText
        ⟨true, some ⟨[⟨none⟩, ⟨some "hello"⟩]⟩⟩ = "hello" :=
  ⟨rfl, rfl⟩

/-- C5 (amended): when the event has content whose first part carries
truthy text, the raw response text is the newline join of the texts of
the textual parts in order (empty for no textual parts); otherwise (no
content, no parts, or a first part without text) it is the empty
string. -/
theorem response_text_amended (event : InferenceEvent) :
    responseText event =
      if firstPartTextTruthy event then specResponseText event else "" := by
  obtain ⟨fin, content⟩ := event
  cases content with
  | none => rfl
  | some c =>
    obtain ⟨parts⟩ := c
    cases parts with
    | nil => rfl
    | cons p ps =>
      by_cases hp : textTruthy p.text = true
      · simp [responseText, firstPartTextTruthy, specResponseText, hp]
      · simp [responseText, firstPartTextTruthy, specResponseText, hp]

/-- C6: an inference stream of N non-final events followed by one final
event yields exactly N incomplete progress events, each carrying the
fixed status message of `get_processing_message`, followed by exactly one
complete event carrying the extraction result. -/
theorem stream_progress_shape (pre : List InferenceEvent) (e : InferenceEvent)
    (hpre : ∀ x ∈ pre, x.is_final_response = false)
    (he : e.is_final_response = true) :
    streamOutputs (pre ++ [e]) =
      List.replicate pre.length (ProgressEvent.incomplete get_processing_message) ++
        [ProgressEvent.complete (processFinalText (responseText e))] := by
  unfold streamOutputs
  rw [List.map_append]
  congr 1
  · induction pre with
    | nil => rfl
    | cons x xs ih =>
      have hx : x.is_final_response = false := hpre x (by simp)
      show processEvent x :: xs.map processEvent =
        List.replicate (x :: xs).length (ProgressEvent.incomplete get_processing_message)
      rw [List.length_cons, List.replicate_succ,
        ih (fun y hy => hpre y (List.mem_cons_of_mem x hy))]
      congr 1
      unfold processEvent
      rw [hx]
      rfl
  · show [processEvent e] = [ProgressEvent.complete (processFinalText (responseText e))]
    unfold processEvent
    rw [he]
    rfl

theorem firstCompleteContent_skip (pre : List ProgressEvent) (c : String)
    (rest : List ProgressEvent)
    (hpre : ∀ x ∈ pre, x.is_task_complete = false) :
    firstCompleteContent (pre ++ ProgressEvent.complete c :: rest) = c := by
  induction pre with
  | nil => rfl
  | cons x xs ih =>
    cases x with
    | complete d =>
      have hdx := hpre (ProgressEvent.complete d) (List.mem_cons_self _ _)
      simp [ProgressEvent.is_task_complete] at hdx
    | incomplete m =>
      show firstCompleteContent (xs ++ ProgressEvent.complete c :: rest) = c
      exact ih (fun y hy => hpre y (List.mem_cons_of_mem _ hy))

theorem consumedItems_skip (pre : List ProgressEvent) (c : String)
    (rest : List ProgressEvent)
    (hpre : ∀ x ∈ pre, x.is_task_complete = false) :
    consumedItems (pre ++ ProgressEvent.complete c :: rest) =
      pre ++ [ProgressEvent.complete c] := by
  induction pre with
  | nil => rfl
  | cons x xs ih =>
    cases x with
    | complete d =>
      have hdx := hpre (ProgressEvent.complete d) (List.mem_cons_self _ _)
      simp [ProgressEvent.is_task_complete] at hdx
    | incomplete m =>
      show ProgressEvent.incomplete m :: consumedItems (xs ++ ProgressEvent.complete c :: rest) =
        ProgressEvent.incomplete m :: (xs ++ [ProgressEvent.complete c])
      rw [ih (fun y hy => hpre y (List.mem_cons_of_mem _ hy))]

/-- C7: on a progress sequence whose first complete event follows only
incomplete ones, the executor bridge reads exactly up to that first
complete event, discards the incomplete ones, and enqueues exactly one
outbound message whose body is the payload of that event. -/
theorem executor_first_complete (pre : List ProgressEvent) (c : String)
    (rest : List ProgressEvent)
    (hpre : ∀ x ∈ pre, x.is_task_complete = false) :
    executeEnqueued (pre ++ ProgressEvent.complete c :: rest) = [c] ∧
    consumedItems (pre ++ ProgressEvent.complete c :: rest) =
      pre ++ [ProgressEvent.complete c] := by
  constructor
  · unfold executeEnqueued
    rw [firstCompleteContent_skip pre c rest hpre]
  · exact consumedItems_skip pre c rest hpre

/-- C8: a cancellation request always fails with the unsupported-operation
error and never completes normally with a data result. -/
theorem cancel_always_raises (context : RequestContext)
    (event_queue : EventQueueState) :
    cancel context event_queue = Except.error "cancel not supported" ∧
    ∀ u : Unit, cancel context event_queue ≠ Except.ok u :=
  ⟨rfl, fun _ h => Except.noConfusion h⟩

theorem intField_ok (kvs : List (String × Json)) (k : String) (n : Int)
    (h : intField kvs k = Except.ok n) : getKey kvs k = some (Json.num n) := by
  unfold intField at h
  split at h
  all_goals try exact Except.noConfusion h
  rename_i n' heq
  injection h with h1
  rw [heq, h1]

theorem strField_ok (kvs : List (String × Json)) (k : String) (s : String)
    (h : strField kvs k = Except.ok s) : getKey kvs k = some (Json.str s) := by
  unfold strField at h
  split at h
  all_goals try exact Except.noConfusion h
  rename_i s' heq
  injection h with h1
  rw [heq, h1]

theorem arrField_ok (kvs : List (String × Json)) (k : String) (xs : List Json)
    (h : arrField kvs k = Except.ok xs) : getKey kvs k = some (Json.arr xs) := by
  unfold arrField at h
  split at h
  all_goals try exact Except.noConfusion h
  rename_i xs' heq
  injection h with h1
  rw [heq, h1]

theorem validateIntList_ok (xs : List Json) (ns : List Int)
    (h : validateIntList xs = Except.ok ns) : xs = ns.map Json.num := by
  induction xs generalizing ns with
  | nil =>
    simp only [validateIntList, Except.ok.injEq] at h
    rw [← h]
    rfl
  | cons x rest ih =>
    cases x with
    | num n =>
      cases hrec : validateIntList rest with
      | error e => simp [validateIntList, hrec] at h
      | ok ns' =>
        simp only [validateIntList, hrec, Except.ok.injEq] at h
        rw [← h, List.map_cons, ih ns' hrec]
    | null => simp [validateIntList] at h
    | bool b => simp [validateIntList] at h
    | str s => simp [validateIntList] at h
    | arr ys => simp [validateIntList] at h
    | obj kvs => simp [validateIntList] at h

theorem validateDaily_ok (j : Json) (d : DailyWeather)
    (h : validateDaily j = Except.ok d) : dailyMatches j d := by
  cases j with
  | obj kvs =>
    cases hday : intField kvs "day" with
    | error e => simp [validateDaily, hday] at h
    | ok day =>
      cases hdate : strField kvs "date" with
      | error e => simp [validateDaily, hday, hdate] at h
      | ok date =>
        cases hcond : strField kvs "condition" with
        | error e => simp [validateDaily, hday, hdate, hcond] at h
        | ok condition =>
          cases hhigh : intField kvs "highTemp" with
          | error e => simp [validateDaily, hday, hdate, hcond, hhigh] at h
          | ok highTemp =>
            cases hlow : intField kvs "lowTemp" with
            | error e => simp [validateDaily, hday, hdate, hcond, hhigh, hlow] at h
            | ok lowTemp =>
              cases hprec : intField kvs "precipitation" with
              | error e => simp [validateDaily, hday, hdate, hcond, hhigh, hlow, hprec] at h
              | ok precipitation =>
                cases hhum : intField kvs "humidity" with
                | error e => simp [validateDaily, hday, hdate, hcond, hhigh, hlow, hprec, hhum] at h
                | ok humidity =>
                  cases hwind : intField kvs "windSpeed" with
                  | error e =>
                    simp [validateDaily, hday, hdate, hcond, hhigh, hlow, hprec, hhum, hwind] at h
                  | ok windSpeed =>
                    cases hdesc : strField kvs "description" with
                    | error e =>
                      simp [validateDaily, hday, hdate, hcond, hhigh, hlow, hprec, hhum,
                        hwind, hdesc] at h
                    | ok description =>
                      simp only [validateDaily, hday, hdate, hcond, hhigh, hlow, hprec, hhum,
                        hwind, hdesc, Except.ok.injEq] at h
                      rw [← h]
                      exact ⟨intField_ok _ _ _ hday, strField_ok _ _ _ hdate,
                        strField_ok _ _ _ hcond, intField_ok _ _ _ hhigh,
                        intField_ok _ _ _ hlow, intField_ok _ _ _ hprec,
                        intField_ok _ _ _ hhum, intField_ok _ _ _ hwind,
                        strField_ok _ _ _ hdesc⟩
  | null => simp [validateDaily] at h
  | bool b => simp [validateDaily] at h
  | num n => simp [validateDaily] at h
  | str s => simp [validateDaily] at h
  | arr xs => simp [validateDaily] at h

theorem validateDailyList_ok (xs : List Json) (ds : List DailyWeather)
    (h : validateDailyList xs = Except.ok ds) :
    List.Forall₂ dailyMatches xs ds := by
  induction xs generalizing ds with
  | nil =>
    simp only [validateDailyList, Except.ok.injEq] at h
    rw [← h]
    exact List.Forall₂.nil
  | cons x rest ih =>
    cases hd0 : validateDaily x with
    | error e => simp [validateDailyList, hd0] at h
    | ok d0 =>
      cases hds : validateDailyList rest with
      | error e => simp [validateDailyList, hd0, hds] at h
      | ok ds' =>
        simp only [validateDailyList, hd0, hds, Except.ok.injEq] at h
        rw [← h]
        exact List.Forall₂.cons (validateDaily_ok x d0 hd0) (ih ds' hds)

theorem validateStructured_ok (j : Json) (w : StructuredWeather)
    (h : validateStructured j = Except.ok w) : weatherMatches j w := by
  cases j with
  | obj kvs =>
    cases hdest : strField kvs "destination" with
    | error e => simp [validateStructured, hdest] at h
    | ok dest =>
      cases hfitems : arrField kvs "forecast" with
      | error e => simp [validateStructured, hdest, hfitems] at h
      | ok fitems =>
        cases hforecast : validateDailyList fitems with
        | error e => simp [validateStructured, hdest, hfitems, hforecast] at h
        | ok forecast =>
          cases hadvice : strField kvs "travelAdvice" with
          | error e => simp [validateStructured, hdest, hfitems, hforecast, hadvice] at h
          | ok advice =>
            cases hbitems : arrField kvs "bestDays" with
            | error e =>
              simp [validateStructured, hdest, hfitems, hforecast, hadvice, hbitems] at h
            | ok bitems =>
              cases hbest : validateIntList bitems with
              | error e =>
                simp [validateStructured, hdest, hfitems, hforecast, hadvice, hbitems,
                  hbest] at h
              | ok bestDays =>
                simp only [validateStructured, hdest, hfitems, hforecast, hadvice, hbitems,
                  hbest, Except.ok.injEq] at h
                rw [← h]
                refine ⟨strField_ok _ _ _ hdest, ?_, strField_ok _ _ _ hadvice, ?_⟩
                · rw [arrField_ok _ _ _ hfitems]
                  exact validateDailyList_ok fitems forecast hforecast
                · rw [arrField_ok _ _ _ hbitems, validateIntList_ok bitems bestDays hbest]
  | null => simp [validateStructured] at h
  | bool b => simp [validateStructured] at h
  | num n => simp [validateStructured] at h
  | str s => simp [validateStructured] at h
  | arr xs => simp [validateStructured] at h

/-- C1: for every final-event text whose stripped, fence-stripped form is
valid JSON accepted by the `StructuredWeather` schema, the extraction
returns the validated value re-serialized with stable field order and
indent 2, and every schema field of the value equals the corresponding
field of the input JSON (round trip). -/
theorem extract_validate_round_trip (t : String) (j : Json) (w : StructuredWeather)
    (h1 : loads (stripFences (pyStrip t)) = some j)
    (h2 : validateStructured j = Except.ok w) :
    processFinalText t = dumpsInd 0 (modelDump w) ∧ weatherMatches j w := by
  constructor
  · simp only [processFinalText, h1, h2]
  · exact validateStructured_ok j w h2

set_option maxRecDepth 4000 in
/-- Witness for C1 at a fenced sample forecast. -/
theorem extract_validate_round_trip_witness :
    processFinalText sampleEventText = dumpsInd 0 (modelDump sampleWeather) ∧
      weatherMatches sampleJson sampleWeather :=
  extract_validate_round_trip sampleEventText sampleJson sampleWeather rfl rfl

/-- C3: for every input text that is not parseable JSON after trimming
and fence stripping, the result is the malformed-JSON error envelope, and
its `raw_content` is a prefix of the offending substring of at most 200
characters, equal to it when it is no longer than 200 characters; the
truncation is total. -/
theorem malformed_json_envelope (t : String)
    (h : loads (stripFences (pyStrip t)) = none) :
    processFinalText t = dumps (Json.obj [("error", Json.str malformedErrorText),
      ("raw_content", Json.str (pySlice (stripFences (pyStrip t)) 200))]) ∧
    (pySlice (stripFences (pyStrip t)) 200).length ≤ 200 ∧
    (pySlice (stripFences (pyStrip t)) 200).toList <+: (stripFences (pyStrip t)).toList ∧
    ((stripFences (pyStrip t)).length ≤ 200 →
      pySlice (stripFences (pyStrip t)) 200 = stripFences (pyStrip t)) := by
  refine ⟨?_, ?_, ?_, ?_⟩
  · simp only [processFinalText, h]
  · show ((stripFences (pyStrip t)).toList.take 200).length ≤ 200
    rw [List.length_take]
    exact min_le_left _ _
  · exact List.take_prefix 200 _
  · intro hle
    show String.mk ((stripFences (pyStrip t)).toList.take 200) = stripFences (pyStrip t)
    rw [List.take_of_length_le (show (stripFences (pyStrip t)).toList.length ≤ 200 from hle)]
    rfl

/-- Witness for C3 at the example text given in the design document. -/
theorem malformed_json_envelope_witness :
    processFinalText "not json at all" =
      dumps (Json.obj [("error", Json.str malformedErrorText),
        ("raw_content", Json.str (pySlice (stripFences (pyStrip "not json at all")) 200))]) ∧
    (pySlice (stripFences (pyStrip "not json at all")) 200).length ≤ 200 ∧
    (pySlice (stripFences (pyStrip "not json at all")) 200).toList <+:
      (stripFences (pyStrip "not json at all")).toList ∧
    ((stripFences (pyStrip "not json at all")).length ≤ 200 →
      pySlice (stripFences (pyStrip "not json at all")) 200 =
        stripFences (pyStrip "not json at all")) :=
  malformed_json_envelope "not json at all" rfl

/-- C4: for every parseable JSON value rejected by the schema validator,
the result is the validation-failure error envelope carrying the
validator message, and no exception escapes the extractor. -/
theorem validation_failure_envelope (t : String) (j : Json) (e : String)
    (h1 : loads (stripFences (pyStrip t)) = some j)
    (h2 : validateStructured j = Except.error e) :
    processFinalText t =
      dumps (Json.obj [("error", Json.str ("Validation failed: " ++ e))]) := by
  simp only [processFinalText, h1, h2]

/-- Witness for C4 at an input missing the required `forecast` field. -/
theorem validation_failure_envelope_witness :
    processFinalText " \x7b\"destination\": \"T\"\x7d " =
      dumps (Json.obj [("error",
        Json.str ("Validation failed: " ++ "forecast: Field required"))]) :=
  validation_failure_envelope " \x7b\"destination\": \"T\"\x7d "
    (Json.obj [("destination", Json.str "T")]) "forecast: Field required" rfl rfl

/-- C9: schema validation enforces neither referential integrity of
`bestDays` nor 0-100 bounds on percentage fields: a well-formed input
whose best days index no forecast day (twice) and whose percentages lie
outside 0-100 still validates. -/
theorem schema_unchecked_ranges :
    validateStructured badRangeJson = Except.ok badRangeWeather ∧
    badRangeWeather.bestDays = [7, 7] ∧
    (∀ d ∈ badRangeWeather.forecast, d.day ≠ 7) ∧
    (∃ d ∈ badRangeWeather.forecast,
      (100 < d.precipitation ∨ d.precipitation < 0) ∧
      (100 < d.humidity ∨ d.humidity < 0)) :=
  ⟨rfl, rfl, by decide, by decide⟩

theorem getKey_filter (kvs : List (String × Json)) (pfn : String × Json → Bool)
    (k : String) (hpk : ∀ v, pfn (k, v) = true) :
    getKey (kvs.filter pfn) k = getKey kvs k := by
  induction kvs with
  | nil => rfl
  | cons p rest ih =>
    obtain ⟨k', v⟩ := p
    by_cases hp : pfn (k', v) = true
    · rw [List.filter_cons_of_pos hp]
      show (match getKey (rest.filter pfn) k with
        | some r => some r
        | none => if k' = k then some v else none) =
        match getKey rest k with
        | some r => some r
        | none => if k' = k then some v else none
      rw [ih]
    · rw [List.filter_cons_of_neg hp]
      show getKey (rest.filter pfn) k =
        match getKey rest k with
        | some r => some r
        | none => if k' = k then some v else none
      rw [ih]
      cases hg : getKey rest k with
      | some r => rfl
      | none =>
        have hne : k' ≠ k := by
          intro he
          apply hp
          rw [he]
          exact hpk v
        show none = if k' = k then some v else none
        rw [if_neg hne]

theorem validateStructured_congr (A B : List (String × Json))
    (hdest : getKey A "destination" = getKey B "destination")
    (hfore : getKey A "forecast" = getKey B "forecast")
    (hadv : getKey A "travelAdvice" = getKey B "travelAdvice")
    (hbest : getKey A "bestDays" = getKey B "bestDays") :
    validateStructured (Json.obj A) = validateStructured (Json.obj B) := by
  simp only [validateStructured, strField, arrField]
  rw [hdest, hfore, hadv, hbest]

/-- C10: a parseable JSON object whose schema-keyed members validate is
accepted unchanged when unknown extra members are present (they are
ignored, not an error), and the re-serialized success payload carries
exactly the four schema keys, so unknown fields never reach the
output. -/
theorem extra_fields_ignored (kvs : List (String × Json)) (w : StructuredWeather)
    (h : validateStructured (Json.obj (kvs.filter
      (fun p => decide (p.1 ∈ structuredWeatherKeys)))) = Except.ok w) :
    validateStructured (Json.obj kvs) = Except.ok w ∧
    objKeys (modelDump w) = structuredWeatherKeys := by
  have hc := validateStructured_congr
    (kvs.filter (fun p => decide (p.1 ∈ structuredWeatherKeys))) kvs
    (getKey_filter kvs _ "destination" (fun v => by simp [structuredWeatherKeys]))
    (getKey_filter kvs _ "forecast" (fun v => by simp [structuredWeatherKeys]))
    (getKey_filter kvs _ "travelAdvice" (fun v => by simp [structuredWeatherKeys]))
    (getKey_filter kvs _ "bestDays" (fun v => by simp [structuredWeatherKeys]))
  rw [hc] at h
  exact ⟨h, rfl⟩

/-- Witness for C10 at an object carrying one unknown member. -/
theorem extra_fields_ignored_witness :
    validateStructured (Json.obj [("destination", Json.str "T"),
      ("forecast", Json.arr []), ("travelAdvice", Json.str "ok"),
      ("bestDays", Json.arr []), ("unknownExtra", Json.str "ignored")]) =
      Except.ok (StructuredWeather.mk "T" [] "ok" []) ∧
    objKeys (modelDump (StructuredWeather.mk "T" [] "ok" [])) = structuredWeatherKeys :=
  extra_fields_ignored [("destination", Json.str "T"),
    ("forecast", Json.arr []), ("travelAdvice", Json.str "ok"),
    ("bestDays", Json.arr []), ("unknownExtra", Json.str "ignored")]
    (StructuredWeather.mk "T" [] "ok" []) rfl

/-- Witness for C6 at a two-update stream. -/
theorem stream_progress_shape_witness :
    streamOutputs ([InferenceEvent.mk false none,
        InferenceEvent.mk false (some (Content.mk []))] ++
      [InferenceEvent.mk true (some (Content.mk [ContentPart.mk (some "42")]))]) =
      List.replicate 2 (ProgressEvent.incomplete get_processing_message) ++
        [ProgressEvent.complete (processFinalText (responseText
          (InferenceEvent.mk true (some (Content.mk [ContentPart.mk (some "42")])))))] :=
  stream_progress_shape
    [InferenceEvent.mk false none, InferenceEvent.mk false (some (Content.mk []))]
    (InferenceEvent.mk true (some (Content.mk [ContentPart.mk (some "42")])))
    (by decide) rfl

/-- Witness for C7 at a sequence with one interim event and a stray event
after the first complete one. -/
theorem executor_first_complete_witness :
    executeEnqueued ([ProgressEvent.incomplete get_processing_message] ++
      ProgressEvent.complete "payload" :: [ProgressEvent.complete "later"]) = ["payload"] ∧
    consumedItems ([ProgressEvent.incomplete get_processing_message] ++
      ProgressEvent.complete "payload" :: [ProgressEvent.complete "later"]) =
      [ProgressEvent.incomplete get_processing_message] ++
        [ProgressEvent.complete "payload"] :=
  executor_first_complete [ProgressEvent.incomplete get_processing_message]
    "payload" [ProgressEvent.complete "later"] (by decide)
